import Mathlib

/-!
Verification of the mega-scraper repository (src/sync.py, src/scrape.py).

Shallow embedding conventions:
* Python strings are modelled as `List Char` (`Str`); Python compares strings
  lexicographically by code point, modelled by `strLtB` over `Char.toNat`.
* The local filesystem (os.path.exists / os.path.getsize / os.stat().st_mtime)
  is modelled as a probe keyed by the remote-relative node path: the source
  always queries `os.path.join(self.localRoot, node['path'])`, so the constant
  `localRoot` prefix is folded into the probe and `os.path.dirname` acts on the
  remote-relative path (the top-level directory maps to `[]`, i.e. `localRoot`
  itself, mirroring `dirname` splitting at the last separator).
* Timestamps (`datetime.timestamp()` results and `st_mtime`) are modelled as
  integer seconds; the claims only use their linear order.
* Python code that can raise is embedded in `Except PyErr`.
-/

/-- Python strings as lists of code points. -/
abbrev Str := List Char

/-- Exceptions raised by the embedded Python code.  `outOfFuel` is not a Python
exception: it marks exhaustion of the explicit fuel used to embed the
`while`/`for` loop of `scrape.py`'s `getRemoteTree` (whose iteration count is
unbounded a priori because it mutates the list it iterates over). -/
inductive PyErr where
  | typeError
  | valueError
  | osError
  | outOfFuel
deriving DecidableEq

/-- One remote node record, as built by `MEGAsync.ls` / `MEGAsync.lsRecursive`
(sync.py:298-308).  The Python dict key `export` is renamed `exportFlag`
because `export` is a Lean keyword.  `version` and `size` are `Int` (Python
`int`), `date` is the integer timestamp. -/
structure Node where
  type : Char
  exportFlag : Char
  exportDuration : Char
  shared : Char
  version : Int
  size : Int
  date : Int
  name : Str
  path : Str
deriving DecidableEq

/-- Python string comparison `a < b`: lexicographic on code points
(`Char.toNat`). -/
def strLtB : Str → Str → Bool
  | _, [] => false
  | [], _ :: _ => true
  | a :: as, b :: bs =>
    decide (a.toNat < b.toNat) || (a == b && strLtB as bs)

/-- Python `b.startswith(a)`: `a` is a literal character prefix of `b`. -/
def prefixB : Str → Str → Bool
  | [], _ => true
  | _ :: _, [] => false
  | a :: as, b :: bs => a == b && prefixB as bs

/-- Python `s.strip(chars)`: remove any of `chars` from both ends. -/
def pyStrip (chars : List Char) (s : Str) : Str :=
  ((s.dropWhile (fun c => chars.contains c)).reverse.dropWhile
    (fun c => chars.contains c)).reverse

/-- Python `s.strip()` on the whitespace the listing can contain. -/
def pyStripWs (s : Str) : Str := pyStrip [' ', '\t', '\r', '\n'] s

/-- Python `s.rstrip(c)` for a single character. -/
def pyRStrip (ch : Char) (s : Str) : Str :=
  (s.reverse.dropWhile (fun c => c == ch)).reverse

/-- Digit value of a decimal digit character. -/
def digitVal (c : Char) : Nat := c.toNat - '0'.toNat

/-- Value of a nonempty string of decimal digits. -/
def digitsVal (l : Str) : Int :=
  l.foldl (fun acc c => 10 * acc + (digitVal c : Int)) 0

/-- Python `int(s)` on an already-stripped string: an optional sign followed by
at least one decimal digit; anything else raises `ValueError`.  (Python also
accepts underscore separators, which the listing grammar `[\d-]+` can never
produce.) -/
def pyInt (s : Str) : Except PyErr Int :=
  match s with
  | '-' :: rest =>
    if rest ≠ [] ∧ rest.all Char.isDigit then .ok (-(digitsVal rest))
    else .error .valueError
  | '+' :: rest =>
    if rest ≠ [] ∧ rest.all Char.isDigit then .ok (digitsVal rest)
    else .error .valueError
  | rest =>
    if rest ≠ [] ∧ rest.all Char.isDigit then .ok (digitsVal rest)
    else .error .valueError

/-- Field sanitisation of `version`/`size` (sync.py:289-296): a single dash
decodes to 0, otherwise `int(...)` (which can raise `ValueError`). -/
def sanitizeIntField (s : Str) : Except PyErr Int :=
  if s = ['-'] then .ok 0 else pyInt s

/-- Days in a month of the (proleptic Gregorian) calendar used by
`datetime`. -/
def daysInMonth (y m : Nat) : Nat :=
  if m = 2 then
    if y % 4 = 0 ∧ (y % 100 ≠ 0 ∨ y % 400 = 0) then 29 else 28
  else if m = 4 ∨ m = 6 ∨ m = 9 ∨ m = 11 then 30
  else 31

/-- Days since the Unix epoch of a civil date (standard era-based integer
computation; divisions truncate toward zero, and all intermediate values are
nonnegative for the years `datetime` accepts). -/
def daysFromCivil (y m d : Int) : Int :=
  let yy := if m ≤ 2 then y - 1 else y
  let era := (if 0 ≤ yy then yy else yy - 399) / 400
  let yoe := yy - era * 400
  let doy := (153 * (m + (if 2 < m then -3 else 9)) + 2) / 5 + d - 1
  let doe := yoe * 365 + yoe / 4 - yoe / 100 + doy
  era * 146097 + doe - 719468

/-- The composition `datetime.datetime.strptime(s, "%Y-%m-%dT%H:%M:%S").timestamp()`
(sync.py:284): the string must consist of exactly `YYYY-MM-DDTHH:MM:SS` with a
calendar-valid date and time, otherwise `strptime`/`datetime` raises
`ValueError`, modelled as `none`.  The result is integer epoch seconds (the
source's naive-datetime local-time offset is irrelevant to every claim, which
only compare timestamps with each other). -/
def strptime (s : Str) : Option Int :=
  match s with
  | [y1, y2, y3, y4, s1, o1, o2, s2, d1, d2, t1, h1, h2, c1, i1, i2, c2, e1, e2] =>
    if (y1.isDigit ∧ y2.isDigit ∧ y3.isDigit ∧ y4.isDigit ∧
        o1.isDigit ∧ o2.isDigit ∧ d1.isDigit ∧ d2.isDigit ∧
        h1.isDigit ∧ h2.isDigit ∧ i1.isDigit ∧ i2.isDigit ∧
        e1.isDigit ∧ e2.isDigit ∧
        s1 = '-' ∧ s2 = '-' ∧ t1 = 'T' ∧ c1 = ':' ∧ c2 = ':') then
      let y := 1000 * digitVal y1 + 100 * digitVal y2 + 10 * digitVal y3 + digitVal y4
      let mo := 10 * digitVal o1 + digitVal o2
      let d := 10 * digitVal d1 + digitVal d2
      let h := 10 * digitVal h1 + digitVal h2
      let mi := 10 * digitVal i1 + digitVal i2
      let se := 10 * digitVal e1 + digitVal e2
      if 1 ≤ y ∧ 1 ≤ mo ∧ mo ≤ 12 ∧ 1 ≤ d ∧ d ≤ daysInMonth y mo ∧
          h ≤ 23 ∧ mi ≤ 59 ∧ se ≤ 59 then
        some (daysFromCivil (y : Int) (mo : Int) (d : Int) * 86400 +
          (h : Int) * 3600 + (mi : Int) * 60 + (se : Int))
      else none
    else none
  | _ => none

/-- The five captured fields of a `nodePattern` match in `MEGAsync.lsRecursive`
(sync.py:258-264): group 1 (the four flag characters), group 2 (version field
with its leading padding), group 3 (size field with its leading padding),
group 4 (the timestamp text) and group 7 (the name, `(.*)`). -/
structure NodeMatch where
  flags : Str
  version : Str
  size : Str
  date : Str
  name : Str
deriving DecidableEq

/-- First flag column of the record grammar: `[bdirx-]`. -/
def isFlag0 (c : Char) : Bool :=
  c == 'b' || c == 'd' || c == 'i' || c == 'r' || c == 'x' || c == '-'

/-- Second flag column: `[e-]`. -/
def isFlag1 (c : Char) : Bool := c == 'e' || c == '-'

/-- Third flag column: `[pt-]`. -/
def isFlag2 (c : Char) : Bool := c == 'p' || c == 't' || c == '-'

/-- Fourth flag column: `[is-]`. -/
def isFlag3 (c : Char) : Bool := c == 'i' || c == 's' || c == '-'

/-- Character class `[\d-]` of the version and size fields. -/
def isDigitDash (c : Char) : Bool := c.isDigit || c == '-'

/-- Match ` {0,n}` followed by the rest: splits off the (maximal) run of
leading spaces; the regex fails when more than `n` spaces are present, since
the following `[\d-]` atom can never match a space on backtracking. -/
def spanSpaces (s : Str) : Str × Str := s.span (fun c => c == ' ')

/-- Match the version component `( {0,3}[\d-])` followed by the literal
space separating it from the size field; returns (group 2, rest). -/
def matchVersionPart (s : Str) : Option (Str × Str) :=
  let (sp, rest) := spanSpaces s
  if sp.length ≤ 3 then
    match rest with
    | c :: ' ' :: rest2 => if isDigitDash c then some (sp ++ [c], rest2) else none
    | _ => none
  else none

/-- Match the size component `( {0,9}[\d-]+)` followed by the literal space
separating it from the date field; the `[\d-]+` run is maximal (the next
pattern character is a space, which `[\d-]` can never match, so greedy
matching needs no backtracking); returns (group 3, rest). -/
def matchSizePart (s : Str) : Option (Str × Str) :=
  let (sp, rest) := spanSpaces s
  if sp.length ≤ 9 then
    let (digs, rest2) := rest.span isDigitDash
    if digs ≠ [] then
      match rest2 with
      | ' ' :: rest3 => some (sp ++ digs, rest3)
      | _ => none
    else none
  else none

/-- Match the date component `(\d{4}(-\d{2}){2}T\d{2}(:\d{2}){2})` (exactly 19
characters) followed by the literal space before the name; returns
(group 4, rest). -/
def matchDatePart (s : Str) : Option (Str × Str) :=
  match s with
  | y1 :: y2 :: y3 :: y4 :: s1 :: o1 :: o2 :: s2 :: d1 :: d2 :: t1 ::
      h1 :: h2 :: c1 :: i1 :: i2 :: c2 :: e1 :: e2 :: ' ' :: rest =>
    if (y1.isDigit && y2.isDigit && y3.isDigit && y4.isDigit &&
        (s1 == '-') && o1.isDigit && o2.isDigit && (s2 == '-') &&
        d1.isDigit && d2.isDigit && (t1 == 'T') &&
        h1.isDigit && h2.isDigit && (c1 == ':') && i1.isDigit && i2.isDigit &&
        (c2 == ':') && e1.isDigit && e2.isDigit) then
      some ([y1, y2, y3, y4, s1, o1, o2, s2, d1, d2, t1,
             h1, h2, c1, i1, i2, c2, e1, e2], rest)
    else none
  | _ => none

/-- `re.search(nodePattern, line)` for the record grammar of
`MEGAsync.lsRecursive` (sync.py:258-264).  The pattern is anchored with `^`,
so search coincides with match-at-start: four flag characters, a space, the
version field, a space, the size field, a space, the timestamp, a space, and
the name `(.*)` taking the remainder of the line. -/
def matchNode (line : Str) : Option NodeMatch :=
  match line with
  | c0 :: c1 :: c2 :: c3 :: c4 :: rest =>
    if (isFlag0 c0 && isFlag1 c1 && isFlag2 c2 && isFlag3 c3 && (c4 == ' ')) then
      match matchVersionPart rest with
      | none => none
      | some (g2, rest2) =>
        match matchSizePart rest2 with
        | none => none
        | some (g3, rest3) =>
          match matchDatePart rest3 with
          | none => none
          | some (g4, name) => some ⟨[c0, c1, c2, c3], g2, g3, g4, name⟩
    else none
  | _ => none

/-- Character class `[\/(:)]` terminating the lazy first group of
`folderPattern` (sync.py:253-257). -/
def classChar (c : Char) : Bool := c == '/' || c == '(' || c == ':' || c == ')'

/-- The tail of `folderPattern`, `((?!=\/).*(?=:))`: the text must not start
with the two characters `=/`, and the greedy `.*` with a `(?=:)` lookahead
captures everything up to (excluding) the last `:` of the remaining text;
with no `:` left the component fails. -/
def matchFolderTail (r : Str) : Option Str :=
  match r with
  | '=' :: '/' :: _ => none
  | _ =>
    match r.reverse.dropWhile (fun c => !(c == ':')) with
    | [] => none
    | _ :: t => some t.reverse

/-- Backtracking over the candidates of the lazy group
`((?<=^\/).*?(?=[\/(:)]))` of `folderPattern`: the group extends (lazily, so
shortest first) up to each position whose next character is in `[\/(:)]`; at
each candidate the optional `\/?` greedily consumes a following slash before
`matchFolderTail` runs, falling back to not consuming it.  `s` is the text
after the leading `/` of the line. -/
def folderSearch : Str → Option Str
  | [] => none
  | c :: t =>
    if classChar c then
      match (if c == '/' then matchFolderTail t else none) with
      | some g2 => some g2
      | none =>
        match matchFolderTail (c :: t) with
        | some g2 => some g2
        | none => folderSearch t
    else folderSearch t

/-- `re.search(folderPattern, line)` for the directory-header grammar of
`MEGAsync.lsRecursive` (sync.py:253-257).  The lookbehind `(?<=^\/)` forces
any match to begin at position 1 of a line whose first character is `/`; the
returned value is capture group 2, the directory path relative to the remote
root, which the parser assigns to `remoteDir` (sync.py:270). -/
def matchFolder (line : Str) : Option Str :=
  match line with
  | c :: rest => if c = '/' then folderSearch rest else none
  | [] => none

/-- The line-by-line loop of `MEGAsync.lsRecursive` (sync.py:266-311):
`remoteDir` is the current-directory context, `nodes` the accumulated records.
A line matching `folderPattern` updates `remoteDir` (sync.py:267-271);
otherwise a line matching `nodePattern` is decoded into a node whose path
joins `remoteDir` and the name (stripped of `\` and `/` at both ends,
sync.py:286); all other lines are skipped.  `strptime` failure (sync.py:284)
and `int(...)` failure (sync.py:289-296) raise `ValueError`, which nothing in
the source catches, so they abort the whole parse. -/
def lsRecLoop : Str → List Node → List Str → Except PyErr (List Node)
  | _, nodes, [] => .ok nodes
  | remoteDir, nodes, line :: rest =>
    match matchFolder line with
    | some dir => lsRecLoop dir nodes rest
    | none =>
      match matchNode line with
      | none => lsRecLoop remoteDir nodes rest
      | some g =>
        match strptime g.date with
        | none => .error .valueError
        | some date =>
          let name := pyRStrip '\r' g.name
          let nodePath := pyStrip ['\\', '/'] (remoteDir ++ '/' :: name)
          match sanitizeIntField (pyStripWs g.version) with
          | .error e => .error e
          | .ok version =>
            match sanitizeIntField (pyStripWs g.size) with
            | .error e => .error e
            | .ok size =>
              lsRecLoop remoteDir
                (nodes ++ [{ type := g.flags.getD 0 ' ',
                             exportFlag := g.flags.getD 1 ' ',
                             exportDuration := g.flags.getD 2 ' ',
                             shared := g.flags.getD 3 ' ',
                             version := version, size := size, date := date,
                             name := name, path := nodePath }]) rest

/-- `MEGAsync.lsRecursive` on the lines of the listing text (the split on
`'\n'` of the external command's output, sync.py:266), starting with an empty
`remoteDir` (sync.py:240) and no nodes. -/
def lsRecursiveParse (lines : List Str) : Except PyErr (List Node) :=
  lsRecLoop [] [] lines

/-- Insert into a sorted list, stably: `x` goes before the first element `y`
with `le x y`. -/
def insertLe (le : Node → Node → Bool) (x : Node) : List Node → List Node
  | [] => [x]
  | y :: ys => if le x y then x :: y :: ys else y :: insertLe le x ys

/-- Python's `sorted` (a stable comparison sort), modelled as stable insertion
sort; equal keys keep their original relative order, as `sorted` guarantees. -/
def pySorted (le : Node → Node → Bool) : List Node → List Node
  | [] => []
  | x :: xs => insertLe le x (pySorted le xs)

/-- The key order of `sorted(nodes, key=lambda n: n['path'])` (sync.py:327):
`a` may come before `b` when `a.path` is not greater than `b.path` in Python's
string order. -/
def nodeLeB (a b : Node) : Bool := !(strLtB b.path a.path)

/-- `MEGAsync.getRemoteTree` of sync.py:314-329 up to the external listing
call: the parsed node records are sorted by path and stored as the tree. -/
def getRemoteTreeSync (nodes : List Node) : List Node :=
  pySorted nodeLeB nodes

/-- The local-filesystem probe used by the reconciler, keyed by
remote-relative path (see the file header): `os.path.exists`,
`os.path.getsize` and `os.stat(...).st_mtime`.  `os.path.exists` never raises
(any error in the underlying `stat` makes it return `False`); this total
version models the run in which the size/mtime probes succeed. -/
structure LocalFS where
  pathExists : Str → Bool
  getsize : Str → Int
  st_mtime : Str → Int

/-- `os.path.dirname` on the remote-relative path: everything before the last
`/`, or the empty path (the sync root itself) when there is no separator. -/
def dirname (p : Str) : Str :=
  match p.reverse.dropWhile (fun c => !(c == '/')) with
  | [] => []
  | _ :: t => t.reverse

/-- One iteration of the folder loop of `MEGAsync.getNewFolders`
(sync.py:345-360) over the accumulated `downloadNodes`: only `'d'` nodes are
considered; a folder missing locally is appended unless the path of some
already-accepted node is a raw string prefix of its path
(`node['path'].startswith(needNode['path'])`, sync.py:352). -/
def getNewFoldersStep (fs : LocalFS) (acc : List Node) (node : Node) : List Node :=
  if node.type = 'd' then
    if fs.pathExists node.path then acc
    else if acc.any (fun m => prefixB m.path node.path) then acc
    else acc ++ [node]
  else acc

/-- `MEGAsync.getNewFolders` (sync.py:331-362): the tree is walked in order
starting from the empty `downloadNodes` list that `__init__` set up
(sync.py:98); the result is the list of queued folders. -/
def getNewFolders (fs : LocalFS) (tree : List Node) : List Node :=
  tree.foldl (getNewFoldersStep fs) []

/-- `MEGAsync.filesToSync` (sync.py:364-399) with total probes: walks the tree
over the pair (`downloadNodes`, `replaceNodes`); a file whose containing
directory is missing is skipped (sync.py:384), a missing file is queued for
download (sync.py:385-388), and an existing file is queued for replacement
when `not isSameSize or isRemoteNewer`, i.e. when the sizes differ or the
local mtime is strictly below the remote date (sync.py:390-397). -/
def filesToSync (fs : LocalFS) : List Node → List Node × List Node → List Node × List Node
  | [], acc => acc
  | node :: rest, (dl, rp) =>
    if node.type = '-' then
      if fs.pathExists (dirname node.path) then
        if !(fs.pathExists node.path) then
          filesToSync fs rest (dl ++ [node], rp)
        else
          if fs.getsize node.path ≠ node.size ∨ fs.st_mtime node.path < node.date then
            filesToSync fs rest (dl, rp ++ [node])
          else
            filesToSync fs rest (dl, rp)
      else filesToSync fs rest (dl, rp)
    else filesToSync fs rest (dl, rp)

/-- The local-filesystem probe with the failure behaviour of
`os.path.getsize` / `os.stat` made explicit: both can raise `OSError` (for
example `PermissionError`); `os.path.exists` still cannot raise. -/
structure LocalFSE where
  pathExists : Str → Bool
  getsize : Str → Except PyErr Int
  st_mtime : Str → Except PyErr Int

/-- `MEGAsync.filesToSync` with fallible size/mtime probes: identical control
flow to `filesToSync`, but an error raised by `os.path.getsize(localPath)` or
`os.stat(localPath)` (sync.py:391-392) propagates — the source wraps no part
of the loop in try/except, so the first such error aborts the whole run. -/
def filesToSyncE (fs : LocalFSE) : List Node → List Node × List Node →
    Except PyErr (List Node × List Node)
  | [], acc => .ok acc
  | node :: rest, (dl, rp) =>
    if node.type = '-' then
      if fs.pathExists (dirname node.path) then
        if !(fs.pathExists node.path) then
          filesToSyncE fs rest (dl ++ [node], rp)
        else
          match fs.getsize node.path with
          | .error e => .error e
          | .ok sz =>
            match fs.st_mtime node.path with
            | .error e => .error e
            | .ok mt =>
              if sz ≠ node.size ∨ mt < node.date then
                filesToSyncE fs rest (dl, rp ++ [node])
              else
                filesToSyncE fs rest (dl, rp)
      else filesToSyncE fs rest (dl, rp)
    else filesToSyncE fs rest (dl, rp)

/-- A file node that `filesToSync` queues for download: remote file whose
containing local directory exists but which is itself absent
(sync.py:384-388). -/
def NeedsDownload (fs : LocalFS) (n : Node) : Prop :=
  n.type = '-' ∧ fs.pathExists (dirname n.path) = true ∧ fs.pathExists n.path = false

/-- A file node that `filesToSync` queues for replacement: remote file
existing locally whose size differs or whose local mtime is strictly older
than the remote date (sync.py:390-397). -/
def NeedsReplace (fs : LocalFS) (n : Node) : Prop :=
  n.type = '-' ∧ fs.pathExists (dirname n.path) = true ∧ fs.pathExists n.path = true ∧
    (fs.getsize n.path ≠ n.size ∨ fs.st_mtime n.path < n.date)

instance (fs : LocalFS) (n : Node) : Decidable (NeedsDownload fs n) := by
  unfold NeedsDownload; infer_instance

instance (fs : LocalFS) (n : Node) : Decidable (NeedsReplace fs n) := by
  unfold NeedsReplace; infer_instance

/-- Python `list.insert(n, x)`: insert before position `n`, appending when `n`
is at or beyond the end. -/
def pyInsert (n : Nat) (x : Node) (l : List Node) : List Node :=
  l.take n ++ x :: l.drop n

/-- The inner `for m, nodeNew in enumerate(newNodes)` of `scrape.py`'s
`getRemoteTree` (scrape.py:251-261): folders are inserted into the work list
at position `i + m + 1` (with `m` counting all new nodes, not only folders)
and appended to the tree; files are appended to the tree; other kinds are
logged and ignored. -/
def integrate (i : Nat) : Nat → List Node → List Node → List Node →
    List Node × List Node
  | _, work, tree, [] => (work, tree)
  | m, work, tree, nd :: rest =>
    if nd.type = 'd' then
      integrate i (m + 1) (pyInsert (i + m + 1) nd work) (tree ++ [nd]) rest
    else if nd.type = '-' then
      integrate i (m + 1) work (tree ++ [nd]) rest
    else
      integrate i (m + 1) work tree rest

/-- One pass of `for n, nodeCheck in enumerate(nodesToCheck)` in `scrape.py`'s
`getRemoteTree` (scrape.py:239-262).  Python iterates over the live list, so
elements inserted after the current index are visited too; the index advances
by one per iteration and the loop ends when it falls off the (current) end of
the list.  `ls` is the collaborator `MEGAsync.ls`; an `OSError` from it is
caught (scrape.py:244-249), counting a bad node, while any other exception
propagates.  The pass returns the tree and bad-node count; the `toPop`
bookkeeping is not tracked because its contents are never meaningfully used
(see `scrapeGetRemoteTree`).  Fuel bounds the number of iterations, since a
listing oracle that keeps returning folders extends the walk indefinitely. -/
def forPass (ls : Str → Except PyErr (List Node)) :
    Nat → Nat → List Node → List Node → Nat → Except PyErr (List Node × Nat)
  | fuel, i, work, tree, bad =>
    match work[i]? with
    | none => .ok (tree, bad)
    | some nodeCheck =>
      match fuel with
      | 0 => .error .outOfFuel
      | fuel' + 1 =>
        match ls nodeCheck.path with
        | .error .osError => forPass ls fuel' (i + 1) work tree (bad + 1)
        | .error e => .error e
        | .ok newNodes =>
          let (work', tree') := integrate i 0 work tree newNodes
          forPass ls fuel' (i + 1) work' tree' bad

/-- The synthetic root entry that seeds `nodesToCheck` (scrape.py:230-235);
the Python dict stores `"-"` strings in the numeric fields, but only its
`path` is ever read, so they are modelled as zeroes. -/
def rootNode : Node :=
  { type := 'd', exportFlag := '-', exportDuration := '-', shared := '-',
    version := 0, size := 0, date := 0, name := ['/'], path := ['/'] }

/-- `MEGAsync.getRemoteTree` of scrape.py:217-269.  After the first pass of
the `for` loop over `nodesToCheck` completes, the source executes
`for n in toPop.sort(reverse=True)` (scrape.py:263): `list.sort` sorts in
place and returns `None`, so iterating over it raises `TypeError`
unconditionally — the `while` loop can never reach a second pass and the
function can never return normally. -/
def scrapeGetRemoteTree (ls : Str → Except PyErr (List Node)) (fuel : Nat) :
    Except PyErr (List Node × Nat) :=
  match forPass ls fuel 0 [rootNode] [] 0 with
  | .error e => .error e
  | .ok _ => .error .typeError

/-- Whether an embedded computation finished without raising. -/
def isOkB (r : Except PyErr (List Node × Nat)) : Bool :=
  match r with
  | .ok _ => true
  | .error _ => false

theorem char_toNat_inj {x y : Char} (h : x.toNat = y.toNat) : x = y :=
  Char.eq_of_val_eq (UInt32.toNat.inj h)

theorem strLtB_asymm : ∀ a b : Str, strLtB a b = true → strLtB b a = false := by
  intro a
  induction a with
  | nil =>
    intro b h
    cases b with
    | nil => simp [strLtB] at h
    | cons c cs => simp [strLtB]
  | cons x xs ih =>
    intro b h
    cases b with
    | nil => simp [strLtB] at h
    | cons y ys =>
      simp only [strLtB, Bool.or_eq_true, Bool.and_eq_true, decide_eq_true_eq,
        beq_iff_eq] at h
      simp only [strLtB, Bool.or_eq_false_iff, Bool.and_eq_false_iff,
        decide_eq_false_iff_not, beq_eq_false_iff_ne, ne_eq]
      rcases h with h | ⟨hxy, hlt⟩
      · constructor
        · omega
        · left
          intro hyx
          rw [hyx] at h
          omega
      · subst hxy
        exact ⟨by omega, Or.inr (ih ys hlt)⟩

theorem strLtB_trans : ∀ a b c : Str, strLtB a b = true → strLtB b c = true →
    strLtB a c = true := by
  intro a
  induction a with
  | nil =>
    intro b c hab hbc
    cases b with
    | nil => simp [strLtB] at hab
    | cons y ys =>
      cases c with
      | nil => simp [strLtB] at hbc
      | cons z zs => simp [strLtB]
  | cons x xs ih =>
    intro b c hab hbc
    cases b with
    | nil => simp [strLtB] at hab
    | cons y ys =>
      cases c with
      | nil => simp [strLtB] at hbc
      | cons z zs =>
        simp only [strLtB, Bool.or_eq_true, Bool.and_eq_true, decide_eq_true_eq,
          beq_iff_eq] at hab hbc ⊢
        rcases hab with hab | ⟨hxy, hab⟩
        · rcases hbc with hbc | ⟨hyz, hbc⟩
          · left; omega
          · subst hyz; left; exact hab
        · subst hxy
          rcases hbc with hbc | ⟨hyz, hbc⟩
          · left; exact hbc
          · subst hyz; exact Or.inr ⟨rfl, ih ys zs hab hbc⟩

theorem strLtB_trichotomy : ∀ a b : Str,
    strLtB a b = true ∨ a = b ∨ strLtB b a = true := by
  intro a
  induction a with
  | nil =>
    intro b
    cases b with
    | nil => exact Or.inr (Or.inl rfl)
    | cons c cs => left; simp [strLtB]
  | cons x xs ih =>
    intro b
    cases b with
    | nil => right; right; simp [strLtB]
    | cons y ys =>
      rcases Nat.lt_trichotomy x.toNat y.toNat with h | h | h
      · left
        simp [strLtB, h]
      · have hxy : x = y := char_toNat_inj h
        subst hxy
        rcases ih ys with h' | h' | h'
        · left; simp [strLtB, h']
        · subst h'; exact Or.inr (Or.inl rfl)
        · right; right; simp [strLtB, h']
      · right; right; simp [strLtB, h]

/-- A string strictly precedes any proper extension of itself in Python's
string order. -/
theorem strLtB_append (a : Str) (c : Char) (t : Str) :
    strLtB a (a ++ c :: t) = true := by
  induction a with
  | nil => simp [strLtB]
  | cons x xs ih => simp [strLtB, ih]

theorem nodeLeB_total (a b : Node) : nodeLeB a b = true ∨ nodeLeB b a = true := by
  unfold nodeLeB
  cases h : strLtB b.path a.path with
  | false => left; simp
  | true => right; simp [strLtB_asymm _ _ h]

theorem nodeLeB_trans {a b c : Node} (hab : nodeLeB a b = true)
    (hbc : nodeLeB b c = true) : nodeLeB a c = true := by
  unfold nodeLeB at hab hbc ⊢
  simp only [Bool.not_eq_true'] at hab hbc ⊢
  by_contra hca
  simp only [Bool.not_eq_false] at hca
  rcases strLtB_trichotomy b.path c.path with h | h | h
  · have := strLtB_trans _ _ _ h hca
    rw [this] at hab
    exact absurd hab (by simp)
  · rw [h] at hab
    rw [hca] at hab
    exact absurd hab (by simp)
  · rw [h] at hbc
    exact absurd hbc (by simp)

theorem prefixB_append (a t : Str) : prefixB a (a ++ t) = true := by
  induction a with
  | nil => simp [prefixB]
  | cons x xs ih => simp [prefixB, ih]

theorem prefixB_trans : ∀ a b c : Str, prefixB a b = true → prefixB b c = true →
    prefixB a c = true := by
  intro a
  induction a with
  | nil => intro b c _ _; simp [prefixB]
  | cons x xs ih =>
    intro b c h1 h2
    cases b with
    | nil => simp [prefixB] at h1
    | cons y ys =>
      cases c with
      | nil => simp [prefixB] at h2
      | cons z zs =>
        simp only [prefixB, Bool.and_eq_true, beq_iff_eq] at h1 h2 ⊢
        exact ⟨h1.1.trans h2.1, ih ys zs h1.2 h2.2⟩

theorem mem_insertLe (le : Node → Node → Bool) (x : Node) :
    ∀ (l : List Node) (a : Node), a ∈ insertLe le x l ↔ a = x ∨ a ∈ l := by
  intro l
  induction l with
  | nil => intro a; simp [insertLe]
  | cons y ys ih =>
    intro a
    simp only [insertLe]
    split
    · simp [List.mem_cons]
    · simp only [List.mem_cons, ih]
      tauto

theorem pairwise_insertLe (x : Node) :
    ∀ l : List Node, l.Pairwise (fun a b => nodeLeB a b = true) →
    (insertLe nodeLeB x l).Pairwise (fun a b => nodeLeB a b = true) := by
  intro l
  induction l with
  | nil => intro _; simp [insertLe]
  | cons y ys ih =>
    intro hp
    rw [List.pairwise_cons] at hp
    obtain ⟨hy, hys⟩ := hp
    simp only [insertLe]
    split
    case isTrue hxy =>
      refine List.Pairwise.cons ?_ (List.pairwise_cons.mpr ⟨hy, hys⟩)
      intro b hb
      rcases List.mem_cons.mp hb with rfl | hb
      · exact hxy
      · exact nodeLeB_trans hxy (hy b hb)
    case isFalse hxy =>
      have hyx : nodeLeB y x = true := by
        rcases nodeLeB_total x y with h | h
        · exact absurd h hxy
        · exact h
      refine List.Pairwise.cons ?_ (ih hys)
      intro b hb
      rcases (mem_insertLe nodeLeB x ys b).mp hb with rfl | hb
      · exact hyx
      · exact hy b hb

/-- The tree assembled by `getRemoteTreeSync` is always sorted by path. -/
theorem pairwise_pySorted (l : List Node) :
    (pySorted nodeLeB l).Pairwise (fun a b => nodeLeB a b = true) := by
  induction l with
  | nil => simp [pySorted]
  | cons x xs ih => exact pairwise_insertLe x _ ih

/-- Once some accepted node's path is a raw prefix of `D.path`, the folder
loop can never append `D`: the subsumption check at sync.py:349-355 keeps
firing and accepted nodes are never removed. -/
theorem foldl_gnf_subsumed (fs : LocalFS) (D : Node) :
    ∀ (l acc : List Node), (∃ m ∈ acc, prefixB m.path D.path = true) →
    D ∉ acc → D ∉ l.foldl (getNewFoldersStep fs) acc := by
  intro l
  induction l with
  | nil =>
    intro acc _ hD
    simpa using hD
  | cons x t ih =>
    intro acc h hD
    rw [List.foldl_cons]
    rcases h with ⟨m, hm, hpre⟩
    unfold getNewFoldersStep
    split
    · split
      · exact ih acc ⟨m, hm, hpre⟩ hD
      · split
        · exact ih acc ⟨m, hm, hpre⟩ hD
        case isFalse hany =>
          apply ih (acc ++ [x])
          · exact ⟨m, List.mem_append_left _ hm, hpre⟩
          · intro hDin
            rcases List.mem_append.mp hDin with h1 | h2
            · exact hD h1
            · have hxD : x = D := by
                have := List.mem_singleton.mp h2
                exact this.symm
              subst hxD
              exact hany (List.any_eq_true.mpr ⟨m, hm, hpre⟩)
    · exact ih acc ⟨m, hm, hpre⟩ hD

/-- Walking a sorted tail that still contains the absent folder `F` can never
append a strict descendant `D` of `F`: by sortedness nothing equal to `D` can
occur before `F`, and processing `F` either appends it or finds an accepted
prefix of its path, after which `foldl_gnf_subsumed` applies. -/
theorem foldl_gnf_descendant (fs : LocalFS) (F D : Node) (s : Str)
    (hD : D.path = F.path ++ '/' :: s) (hFd : F.type = 'd')
    (hFex : fs.pathExists F.path = false) :
    ∀ (l acc : List Node), l.Pairwise (fun a b => nodeLeB a b = true) →
    F ∈ l → D ∉ acc → D ∉ l.foldl (getNewFoldersStep fs) acc := by
  have hDF : D ≠ F := by
    intro h
    have : D.path = F.path := by rw [h]
    rw [hD] at this
    have := congrArg List.length this
    simp at this
  have hFltD : strLtB F.path D.path = true := by
    rw [hD]; exact strLtB_append _ _ _
  intro l
  induction l with
  | nil => intro acc _ hF; simp at hF
  | cons x t ih =>
    intro acc hp hF hDacc
    rw [List.pairwise_cons] at hp
    obtain ⟨hx_all, hp'⟩ := hp
    rw [List.foldl_cons]
    rcases List.mem_cons.mp hF with hxF | hFt
    · subst hxF
      unfold getNewFoldersStep
      rw [if_pos hFd, if_neg (by simp [hFex])]
      cases hany : acc.any (fun m => prefixB m.path F.path) with
      | true =>
        rw [if_pos (by simp [hany])]
        rcases List.any_eq_true.mp hany with ⟨m, hm, hpre⟩
        exact foldl_gnf_subsumed fs D t acc
          ⟨m, hm, prefixB_trans _ _ _ hpre (by rw [hD]; exact prefixB_append _ _)⟩ hDacc
      | false =>
        rw [if_neg (by simp [hany])]
        apply foldl_gnf_subsumed fs D t (acc ++ [F])
        · exact ⟨F, List.mem_append_right _ (List.mem_singleton.mpr rfl),
            by rw [hD]; exact prefixB_append _ _⟩
        · intro hDin
          rcases List.mem_append.mp hDin with h1 | h2
          · exact hDacc h1
          · exact hDF (List.mem_singleton.mp h2)
    · have hxD : x ≠ D := by
        intro h
        subst h
        have hxF : nodeLeB x F = true := hx_all F hFt
        unfold nodeLeB at hxF
        rw [hFltD] at hxF
        simp at hxF
      unfold getNewFoldersStep
      split
      · split
        · exact ih acc hp' hFt hDacc
        · split
          · exact ih acc hp' hFt hDacc
          · apply ih (acc ++ [x]) hp' hFt
            intro hDin
            rcases List.mem_append.mp hDin with h1 | h2
            · exact hDacc h1
            · exact hxD (List.mem_singleton.mp h2).symm
      · exact ih acc hp' hFt hDacc

/-- When every folder of the walked list already exists locally, the folder
loop accepts nothing. -/
theorem foldl_gnf_all_present (fs : LocalFS) :
    ∀ (l acc : List Node), (∀ n ∈ l, n.type = 'd' → fs.pathExists n.path = true) →
    l.foldl (getNewFoldersStep fs) acc = acc := by
  intro l
  induction l with
  | nil => intro acc _; rfl
  | cons x t ih =>
    intro acc h
    rw [List.foldl_cons]
    have hstep : getNewFoldersStep fs acc x = acc := by
      unfold getNewFoldersStep
      split
      case isTrue hx => rw [if_pos (h x (List.mem_cons_self x t) hx)]
      case isFalse hx => rfl
    rw [hstep]
    exact ih acc (fun n hn => h n (List.mem_cons_of_mem x hn))

/-- Characterisation of `filesToSync`: the decision for each node depends only
on that node and the probes, so the loop appends exactly the file nodes
satisfying `NeedsDownload` to `downloadNodes` and those satisfying
`NeedsReplace` to `replaceNodes`. -/
theorem filesToSync_eq (fs : LocalFS) :
    ∀ (tree dl rp : List Node),
    filesToSync fs tree (dl, rp) =
      (dl ++ tree.filter (fun n => decide (NeedsDownload fs n)),
       rp ++ tree.filter (fun n => decide (NeedsReplace fs n))) := by
  intro tree
  induction tree with
  | nil => intro dl rp; simp [filesToSync]
  | cons n t ih =>
    intro dl rp
    by_cases h1 : n.type = '-'
    · by_cases h2 : fs.pathExists (dirname n.path) = true
      · by_cases h3 : fs.pathExists n.path = true
        · by_cases h4 : fs.getsize n.path ≠ n.size ∨ fs.st_mtime n.path < n.date
          · have : filesToSync fs (n :: t) (dl, rp) = filesToSync fs t (dl, rp ++ [n]) := by
              simp [filesToSync, h1, h2, h3, h4]
            rw [this, ih]
            have hnd : ¬NeedsDownload fs n := by simp [NeedsDownload, h3]
            have hnr : NeedsReplace fs n := ⟨h1, h2, h3, h4⟩
            simp [List.filter_cons, hnd, hnr]
          · have : filesToSync fs (n :: t) (dl, rp) = filesToSync fs t (dl, rp) := by
              simp [filesToSync, h1, h2, h3, h4]
            rw [this, ih]
            have hnd : ¬NeedsDownload fs n := by simp [NeedsDownload, h3]
            have hnr : ¬NeedsReplace fs n := by simp [NeedsReplace, h4]
            simp [List.filter_cons, hnd, hnr]
        · have : filesToSync fs (n :: t) (dl, rp) = filesToSync fs t (dl ++ [n], rp) := by
            simp [filesToSync, h1, h2, h3]
          rw [this, ih]
          have hnd : NeedsDownload fs n :=
            ⟨h1, h2, by simpa using h3⟩
          have hnr : ¬NeedsReplace fs n := by simp [NeedsReplace, h3]
          simp [List.filter_cons, hnd, hnr]
      · have : filesToSync fs (n :: t) (dl, rp) = filesToSync fs t (dl, rp) := by
          simp [filesToSync, h1, h2]
        rw [this, ih]
        have hnd : ¬NeedsDownload fs n := by simp [NeedsDownload, h2]
        have hnr : ¬NeedsReplace fs n := by simp [NeedsReplace, h2]
        simp [List.filter_cons, hnd, hnr]
    · have : filesToSync fs (n :: t) (dl, rp) = filesToSync fs t (dl, rp) := by
        simp [filesToSync, h1]
      rw [this, ih]
      have hnd : ¬NeedsDownload fs n := by simp [NeedsDownload, h1]
      have hnr : ¬NeedsReplace fs n := by simp [NeedsReplace, h1]
      simp [List.filter_cons, hnd, hnr]

/-- `filesToSyncE` restricted to probes that never fail computes exactly
`filesToSync`: the fallible embedding agrees with the total one on
error-free runs. -/
def liftFS (fs : LocalFS) : LocalFSE :=
  { pathExists := fs.pathExists,
    getsize := fun p => .ok (fs.getsize p),
    st_mtime := fun p => .ok (fs.st_mtime p) }

theorem filesToSyncE_lift (fs : LocalFS) :
    ∀ (tree : List Node) (dl rp : List Node),
    filesToSyncE (liftFS fs) tree (dl, rp) = .ok (filesToSync fs tree (dl, rp)) := by
  intro tree
  induction tree with
  | nil => intro dl rp; simp [filesToSyncE, filesToSync]
  | cons n t ih =>
    intro dl rp
    simp only [liftFS] at ih ⊢
    by_cases h1 : n.type = '-'
    · by_cases h2 : fs.pathExists (dirname n.path) = true
      · by_cases h3 : fs.pathExists n.path = true
        · by_cases h4 : fs.getsize n.path ≠ n.size ∨ fs.st_mtime n.path < n.date
          · simp [filesToSyncE, filesToSync, h1, h2, h3, h4, ih]
          · simp [filesToSyncE, filesToSync, h1, h2, h3, h4, ih]
        · simp [filesToSyncE, filesToSync, h1, h2, h3, ih]
      · simp [filesToSyncE, filesToSync, h1, h2, ih]
    · simp [filesToSyncE, filesToSync, h1, ih]

/-- Processing a list split around a successfully processed front: the loop of
`filesToSyncE` continues from the front's result. -/
theorem filesToSyncE_append (fs : LocalFSE) :
    ∀ (t1 t2 : List Node) (dl rp : List Node) (mid : List Node × List Node),
    filesToSyncE fs t1 (dl, rp) = .ok mid →
    filesToSyncE fs (t1 ++ t2) (dl, rp) = filesToSyncE fs t2 mid := by
  intro t1
  induction t1 with
  | nil =>
    intro t2 dl rp mid h
    simp only [filesToSyncE] at h
    cases h
    rfl
  | cons n t ih =>
    intro t2 dl rp mid h
    by_cases h1 : n.type = '-'
    · by_cases h2 : fs.pathExists (dirname n.path) = true
      · by_cases h3 : fs.pathExists n.path = true
        · cases hsz : fs.getsize n.path with
          | error e =>
            rw [show filesToSyncE fs (n :: t) (dl, rp) = .error e by
              simp [filesToSyncE, h1, h2, h3, hsz]] at h
            exact absurd h (by simp)
          | ok sz =>
            cases hmt : fs.st_mtime n.path with
            | error e =>
              rw [show filesToSyncE fs (n :: t) (dl, rp) = .error e by
                simp [filesToSyncE, h1, h2, h3, hsz, hmt]] at h
              exact absurd h (by simp)
            | ok mt =>
              by_cases h4 : sz ≠ n.size ∨ mt < n.date
              · rw [show filesToSyncE fs (n :: t) (dl, rp) =
                    filesToSyncE fs t (dl, rp ++ [n]) by
                  simp [filesToSyncE, h1, h2, h3, hsz, hmt, h4]] at h
                rw [show filesToSyncE fs ((n :: t) ++ t2) (dl, rp) =
                    filesToSyncE fs (t ++ t2) (dl, rp ++ [n]) by
                  simp [filesToSyncE, h1, h2, h3, hsz, hmt, h4]]
                exact ih t2 dl (rp ++ [n]) mid h
              · rw [show filesToSyncE fs (n :: t) (dl, rp) =
                    filesToSyncE fs t (dl, rp) by
                  simp [filesToSyncE, h1, h2, h3, hsz, hmt, h4]] at h
                rw [show filesToSyncE fs ((n :: t) ++ t2) (dl, rp) =
                    filesToSyncE fs (t ++ t2) (dl, rp) by
                  simp [filesToSyncE, h1, h2, h3, hsz, hmt, h4]]
                exact ih t2 dl rp mid h
        · rw [show filesToSyncE fs (n :: t) (dl, rp) =
              filesToSyncE fs t (dl ++ [n], rp) by
            simp [filesToSyncE, h1, h2, h3]] at h
          rw [show filesToSyncE fs ((n :: t) ++ t2) (dl, rp) =
              filesToSyncE fs (t ++ t2) (dl ++ [n], rp) by
            simp [filesToSyncE, h1, h2, h3]]
          exact ih t2 (dl ++ [n]) rp mid h
      · rw [show filesToSyncE fs (n :: t) (dl, rp) = filesToSyncE fs t (dl, rp) by
          simp [filesToSyncE, h1, h2]] at h
        rw [show filesToSyncE fs ((n :: t) ++ t2) (dl, rp) =
            filesToSyncE fs (t ++ t2) (dl, rp) by
          simp [filesToSyncE, h1, h2]]
        exact ih t2 dl rp mid h
    · rw [show filesToSyncE fs (n :: t) (dl, rp) = filesToSyncE fs t (dl, rp) by
        simp [filesToSyncE, h1]] at h
      rw [show filesToSyncE fs ((n :: t) ++ t2) (dl, rp) =
          filesToSyncE fs (t ++ t2) (dl, rp) by
        simp [filesToSyncE, h1]]
      exact ih t2 dl rp mid h

/-- The only exception `int(...)`-sanitisation can raise is `ValueError`. -/
theorem sanitizeIntField_error (s : Str) (e : PyErr)
    (h : sanitizeIntField s = .error e) : e = .valueError := by
  unfold sanitizeIntField at h
  split at h
  · exact absurd h (by simp)
  · unfold pyInt at h
    split at h <;> split at h <;> simp_all

/-- The record grammar and the directory-header grammar are disjoint: a record
line starts with one of `[bdirx-]`, while `folderPattern`'s lookbehind
`(?<=^\/)` only matches lines starting with `/`.  Hence a line matched by
`nodePattern` can never be matched by `folderPattern`. -/
theorem matchFolder_eq_none_of_matchNode (line : Str) (g : NodeMatch)
    (h : matchNode line = some g) : matchFolder line = none := by
  cases line with
  | nil => simp [matchNode] at h
  | cons c0 rest0 =>
    have hc0 : isFlag0 c0 = true := by
      cases rest0 with
      | nil => simp [matchNode] at h
      | cons c1 r1 =>
        cases r1 with
        | nil => simp [matchNode] at h
        | cons c2 r2 =>
          cases r2 with
          | nil => simp [matchNode] at h
          | cons c3 r3 =>
            cases r3 with
            | nil => simp [matchNode] at h
            | cons c4 rest =>
              simp only [matchNode] at h
              by_cases hcond :
                  (isFlag0 c0 && isFlag1 c1 && isFlag2 c2 && isFlag3 c3 &&
                    (c4 == ' ')) = true
              · simp only [Bool.and_eq_true] at hcond
                exact hcond.1.1.1.1
              · rw [if_neg hcond] at h
                exact absurd h (by simp)
    have hslash : c0 ≠ '/' := by
      intro hc
      subst hc
      simp [isFlag0] at hc0
    simp [matchFolder, hslash]

/-- If any line of the listing matches the record grammar but carries an
unparsable timestamp, `lsRecursive` raises `ValueError` and the whole parse
aborts — no node list is returned, whatever the other lines contain.  (The
only exceptions the loop can raise are `ValueError`s, from `strptime` or from
`int(...)` on a malformed numeric field.) -/
theorem lsRecLoop_abort :
    ∀ (lines : List Str) (remoteDir : Str) (nodes : List Node),
    (∃ l ∈ lines, ∃ g, matchNode l = some g ∧ strptime g.date = none) →
    lsRecLoop remoteDir nodes lines = .error .valueError := by
  intro lines
  induction lines with
  | nil =>
    intro _ _ h
    simp at h
  | cons line rest ih =>
    intro remoteDir nodes h
    rcases h with ⟨l, hl, g, hg, hbad⟩
    rcases List.mem_cons.mp hl with rfl | hlrest
    · have hf : matchFolder l = none := matchFolder_eq_none_of_matchNode l g hg
      simp only [lsRecLoop, hf, hg, hbad]
    · cases hf : matchFolder line with
      | some dir =>
        simp only [lsRecLoop, hf]
        exact ih dir nodes ⟨l, hlrest, g, hg, hbad⟩
      | none =>
        cases hn : matchNode line with
        | none =>
          simp only [lsRecLoop, hf, hn]
          exact ih remoteDir nodes ⟨l, hlrest, g, hg, hbad⟩
        | some g2 =>
          cases hs : strptime g2.date with
          | none => simp only [lsRecLoop, hf, hn, hs]
          | some d =>
            cases hv : sanitizeIntField (pyStripWs g2.version) with
            | error e =>
              simp only [lsRecLoop, hf, hn, hs, hv]
              rw [sanitizeIntField_error _ _ hv]
            | ok v =>
              cases hz : sanitizeIntField (pyStripWs g2.size) with
              | error e =>
                simp only [lsRecLoop, hf, hn, hs, hv, hz]
                rw [sanitizeIntField_error _ _ hz]
              | ok z =>
                simp only [lsRecLoop, hf, hn, hs, hv, hz]
                exact ih remoteDir _ ⟨l, hlrest, g, hg, hbad⟩

/-- Remote file record used for the C1 tie counterexample. -/
def nodeC1 : Node :=
  { type := '-', exportFlag := '-', exportDuration := '-', shared := '-',
    version := 0, size := 1000, date := 100,
    name := "dragon.stl".data, path := "Minis/dragon.stl".data }

/-- Local state for the C1 tie counterexample: the file and its directory
exist, the size matches the remote size and the local mtime equals the remote
timestamp. -/
def fsC1tie : LocalFS :=
  { pathExists := fun _ => true, getsize := fun _ => 1000, st_mtime := fun _ => 100 }

/-- C1 counterexample: a local file with the remote size whose mtime equals
the remote timestamp (so `t_local <= t_remote` holds) is NOT queued for
replacement by `filesToSync` — the source compares with strict `<`
(sync.py:392), so the claimed "queued iff sizes differ or `t_local <=
t_remote`" fails at equality. -/
theorem c1_tie_counterexample :
    fsC1tie.getsize nodeC1.path = nodeC1.size ∧
    fsC1tie.st_mtime nodeC1.path = nodeC1.date ∧
    fsC1tie.pathExists (dirname nodeC1.path) = true ∧
    fsC1tie.pathExists nodeC1.path = true ∧
    (filesToSync fsC1tie [nodeC1] ([], [])).2 = [] := by
  refine ⟨rfl, rfl, rfl, rfl, rfl⟩

/-- C1 (amended): for every remote file node whose local counterpart exists
(and which is not already in the replace list), `filesToSync` queues it for
replacement iff the local size differs from the remote size OR the local
mtime is strictly less than the remote timestamp; in particular equal sizes
with equal timestamps are NOT queued, and equal sizes with a strictly newer
local file are never queued. -/
theorem c1_replace_rule (fs : LocalFS) (tree : List Node) (node : Node)
    (dl rp : List Node) (h1 : node.type = '-')
    (h2 : fs.pathExists (dirname node.path) = true)
    (h3 : fs.pathExists node.path = true) (h4 : node ∉ rp) :
    node ∈ (filesToSync fs tree (dl, rp)).2 ↔
      node ∈ tree ∧
        (fs.getsize node.path ≠ node.size ∨ fs.st_mtime node.path < node.date) := by
  rw [filesToSync_eq]
  simp [List.mem_filter, NeedsReplace, h1, h2, h3, h4]

/-- Remote file record used for the C1 witness. -/
def nodeC1w : Node :=
  { type := '-', exportFlag := '-', exportDuration := '-', shared := '-',
    version := 0, size := 1000, date := 100,
    name := "dragon.stl".data, path := "Minis/dragon.stl".data }

/-- Local state for the C1 witness: file exists with a different size. -/
def fsC1w : LocalFS :=
  { pathExists := fun _ => true, getsize := fun _ => 900, st_mtime := fun _ => 500 }

theorem c1_replace_rule_witness :
    nodeC1w ∈ (filesToSync fsC1w [nodeC1w] ([], [])).2 :=
  (c1_replace_rule fsC1w [nodeC1w] nodeC1w [] [] rfl rfl rfl (by simp)).mpr
    ⟨List.mem_singleton.mpr rfl, Or.inl (by decide)⟩

/-- A directory-header line of the recursive listing. -/
def lineC2head : Str := "/Root/Minis:".data

/-- A record line whose timestamp has month 13: it matches the record grammar
(`\d{2}` accepts `13`) but `strptime` rejects it. -/
def lineC2bad : Str := "d--- - - 2024-13-01T00:00:00 Dragons".data

/-- A well-formed record line. -/
def lineC2good : Str := "---- - 1000 2024-01-01T00:00:00 a.stl".data

/-- The groups captured from `lineC2bad` by the record grammar. -/
def gC2 : NodeMatch :=
  { flags := "d---".data, version := "-".data, size := "-".data,
    date := "2024-13-01T00:00:00".data, name := "Dragons".data }

/-- The node parsed from `lineC2good` in the `Minis` directory context. -/
def nodeC2good : Node :=
  { type := '-', exportFlag := '-', exportDuration := '-', shared := '-',
    version := 0, size := 1000, date := 1704067200,
    name := "a.stl".data, path := "Minis/a.stl".data }

/-- C2 counterexample: a listing with a header, a record line whose timestamp
month is 13, and a further well-formed record.  The bad line matches the
record grammar and fails `strptime`, and the parse aborts with `ValueError`:
no nodes at all are returned — the following good record is lost and nothing
counts a bad node — whereas the same listing without the bad line parses to
the good node.  This contradicts the claim that only the single bad record is
dropped (counted) and parsing continues. -/
theorem c2_counterexample :
    matchNode lineC2bad = some gC2 ∧
    strptime gC2.date = none ∧
    lsRecursiveParse [lineC2head, lineC2bad, lineC2good] =
      .error .valueError ∧
    lsRecursiveParse [lineC2head, lineC2good] = .ok [nodeC2good] := by
  refine ⟨rfl, rfl, rfl, rfl⟩

/-- C2 (amended): whenever any line of the input matches the record grammar
but its timestamp fails to parse under the layout `YYYY-MM-DDTHH:MM:SS`, the
recursive-mode parser raises `ValueError` and the whole parse aborts — it
returns no node list, it does not drop just the single record and it counts
nothing. -/
theorem c2_bad_timestamp_aborts (lines : List Str) (l : Str) (g : NodeMatch)
    (hmem : l ∈ lines) (hg : matchNode l = some g)
    (hbad : strptime g.date = none) :
    lsRecursiveParse lines = .error .valueError :=
  lsRecLoop_abort lines [] [] ⟨l, hmem, g, hg, hbad⟩

theorem c2_bad_timestamp_aborts_witness :
    lsRecursiveParse [lineC2bad] = .error .valueError :=
  c2_bad_timestamp_aborts [lineC2bad] lineC2bad gC2
    (List.mem_singleton.mpr rfl) rfl rfl

/-- C3: over a path-sorted remote tree, if a folder `F` is locally absent,
then no strict descendant folder `D` of `F` (path `F.path ++ "/" ++ s`) is
ever independently appended to the download list by `getNewFolders`, even
when `D` is itself locally absent: either `F` (or an accepted ancestor of
`F`) is in the list by the time `D` is examined, and its path is a prefix of
`D.path`, so the subsumption check rejects `D`. -/
theorem c3_folder_subsumption (fs : LocalFS) (tree : List Node) (F D : Node)
    (s : Str)
    (hsorted : tree.Pairwise (fun a b => nodeLeB a b = true))
    (hF : F ∈ tree) (hD : D ∈ tree) (hFd : F.type = 'd') (hDd : D.type = 'd')
    (hFabs : fs.pathExists F.path = false)
    (hdesc : D.path = F.path ++ '/' :: s) :
    D ∉ getNewFolders fs tree := by
  unfold getNewFolders
  exact foldl_gnf_descendant fs F D s hdesc hFd hFabs tree [] hsorted hF (by simp)

/-- Folder `Minis`, used for the C3 witness. -/
def folderC3 : Node :=
  { type := 'd', exportFlag := '-', exportDuration := '-', shared := '-',
    version := 0, size := 0, date := 100,
    name := "Minis".data, path := "Minis".data }

/-- Folder `Minis/Sub`, a strict descendant of `Minis`. -/
def folderC3sub : Node :=
  { type := 'd', exportFlag := '-', exportDuration := '-', shared := '-',
    version := 0, size := 0, date := 100,
    name := "Sub".data, path := "Minis/Sub".data }

/-- Local state for the C3 witness: nothing exists locally. -/
def fsC3 : LocalFS :=
  { pathExists := fun _ => false, getsize := fun _ => 0, st_mtime := fun _ => 0 }

theorem c3_folder_subsumption_witness :
    folderC3sub ∉ getNewFolders fsC3 [folderC3, folderC3sub] :=
  c3_folder_subsumption fsC3 [folderC3, folderC3sub] folderC3 folderC3sub
    "Sub".data (by decide) (by decide) (by decide) rfl rfl rfl rfl

/-- C4: record-line classification takes precedence in the observable sense —
every line matching the record grammar is handled by the record branch of
`lsRecursive`.  The source tests `folderPattern` first (sync.py:267-273), but
the grammars are disjoint: `matchFolder` requires the line to start with `/`
while `matchNode` requires a `[bdirx-]` flag character, so a record-grammar
line can never be classified as a directory header (and a line matching both
grammars cannot exist). -/
theorem c4_record_precedence (line : Str) (g : NodeMatch)
    (h : matchNode line = some g) : matchFolder line = none :=
  matchFolder_eq_none_of_matchNode line g h

/-- A record line for the C4 witness. -/
def lineC4 : Str := "d--- - - 2024-01-01T00:00:00 Dragons".data

/-- The groups captured from `lineC4`. -/
def gC4 : NodeMatch :=
  { flags := "d---".data, version := "-".data, size := "-".data,
    date := "2024-01-01T00:00:00".data, name := "Dragons".data }

theorem c4_record_precedence_witness :
    matchNode lineC4 = some gC4 ∧ matchFolder lineC4 = none :=
  ⟨rfl, c4_record_precedence lineC4 gC4 rfl⟩

/-- First of two parsed records with the same path. -/
def nodeC5a : Node :=
  { type := '-', exportFlag := '-', exportDuration := '-', shared := '-',
    version := 0, size := 1, date := 50, name := "a".data, path := "a".data }

/-- Second record with the same path but different metadata. -/
def nodeC5b : Node :=
  { type := '-', exportFlag := '-', exportDuration := '-', shared := '-',
    version := 0, size := 2, date := 60, name := "a".data, path := "a".data }

/-- C5 counterexample: `getRemoteTree` only sorts (sync.py:327); it removes no
duplicates, so two parsed records with the same path both survive into the
final tree, contradicting the claimed exact-duplicate removal. -/
theorem c5_counterexample :
    nodeC5a.path = nodeC5b.path ∧ nodeC5a ≠ nodeC5b ∧
    getRemoteTreeSync [nodeC5a, nodeC5b] = [nodeC5a, nodeC5b] := by
  refine ⟨rfl, by decide, rfl⟩

/-- C5 (amended): the assembled remote tree is sorted by ordinal (code-point)
string comparison of the path field, but duplicate paths are NOT removed:
every input record, duplicate paths included, appears in the output (in
stable order). -/
theorem c5_sorted (nodes : List Node) :
    (getRemoteTreeSync nodes).Pairwise (fun a b => nodeLeB a b = true) :=
  pairwise_pySorted nodes

/-- Folder `Minis` of Scenario A. -/
def folderC6 : Node :=
  { type := 'd', exportFlag := '-', exportDuration := '-', shared := '-',
    version := 0, size := 0, date := 100,
    name := "Minis".data, path := "Minis".data }

/-- File `Minis/dragon.stl` of Scenario A. -/
def fileC6 : Node :=
  { type := '-', exportFlag := '-', exportDuration := '-', shared := '-',
    version := 0, size := 1000, date := 100,
    name := "dragon.stl".data, path := "Minis/dragon.stl".data }

/-- Scenario A remote tree. -/
def treeC6 : List Node := [folderC6, fileC6]

/-- Scenario A local state: nothing exists. -/
def fsC6 : LocalFS :=
  { pathExists := fun _ => false, getsize := fun _ => 0, st_mtime := fun _ => 0 }

/-- C6: a remote file whose containing local directory does not exist is
skipped entirely by `filesToSync` — appended to neither the download list nor
the replace list (first conjunct, for every tree and probe); and in
Scenario A (remote `Minis` folder plus `Minis/dragon.stl`, no local `Minis`)
the whole plan after `getNewFolders` and `filesToSync` is just the folder. -/
theorem c6_skip_missing_dir :
    (∀ (fs : LocalFS) (tree : List Node) (node : Node) (dl rp : List Node),
      node.type = '-' → fs.pathExists (dirname node.path) = false →
      node ∉ dl → node ∉ rp →
      node ∉ (filesToSync fs tree (dl, rp)).1 ∧
        node ∉ (filesToSync fs tree (dl, rp)).2) ∧
    getNewFolders fsC6 treeC6 = [folderC6] ∧
    filesToSync fsC6 treeC6 (getNewFolders fsC6 treeC6, []) = ([folderC6], []) := by
  refine ⟨?_, rfl, rfl⟩
  intro fs tree node dl rp h1 h2 h3 h4
  rw [filesToSync_eq]
  constructor
  · simp [List.mem_filter, NeedsDownload, h2, h3]
  · simp [List.mem_filter, NeedsReplace, h2, h4]

theorem c6_skip_missing_dir_witness :
    fileC6 ∉ (filesToSync fsC6 treeC6 ([], [])).1 ∧
    fileC6 ∉ (filesToSync fsC6 treeC6 ([], [])).2 :=
  c6_skip_missing_dir.1 fsC6 treeC6 fileC6 [] [] rfl rfl (by simp) (by simp)

/-- Folder `A` for the C7 counterexample. -/
def folderC7 : Node :=
  { type := 'd', exportFlag := '-', exportDuration := '-', shared := '-',
    version := 0, size := 0, date := 50, name := "A".data, path := "A".data }

/-- File `A/f.stl` for the C7 counterexample. -/
def fileC7 : Node :=
  { type := '-', exportFlag := '-', exportDuration := '-', shared := '-',
    version := 0, size := 5, date := 50, name := "f.stl".data, path := "A/f.stl".data }

/-- Remote tree for C7. -/
def treeC7 : List Node := [folderC7, fileC7]

/-- Local state before the first run: nothing exists. -/
def fsC7a : LocalFS :=
  { pathExists := fun _ => false, getsize := fun _ => 0, st_mtime := fun _ => 0 }

/-- Local state after executing the first plan exactly as the claim states
it: every queued folder (only `A`) exists; no file was queued or replaced, so
the claim's hypothesis says nothing about `A/f.stl`, which remains absent. -/
def fsC7b : LocalFS :=
  { pathExists := fun p => p == "A".data, getsize := fun _ => 0, st_mtime := fun _ => 0 }

/-- C7 counterexample: the first run queues only the folder `A` (its file is
skipped because the directory is missing).  In a local state where every
queued item of that plan exists — which is all the claim's hypothesis
requires — the second run is NOT empty: the file `A/f.stl` now has an
existing containing directory and is queued for download.  The claimed
idempotence fails because executing a plan also materialises files inside
fetched folders, which the claim's post-state does not cover. -/
theorem c7_counterexample :
    getNewFolders fsC7a treeC7 = [folderC7] ∧
    filesToSync fsC7a treeC7 (getNewFolders fsC7a treeC7, []) = ([folderC7], []) ∧
    fsC7b.pathExists folderC7.path = true ∧
    getNewFolders fsC7b treeC7 = [] ∧
    filesToSync fsC7b treeC7 ([], []) = ([fileC7], []) := by
  refine ⟨rfl, rfl, rfl, rfl, rfl⟩

/-- C7 (amended): reconciliation is idempotent once the local state reflects
the recursive effect of executing the plan: if every remote folder node
exists locally and every remote file node exists locally with the remote size
and an mtime at least the remote timestamp, then a second run queues nothing
— `getNewFolders` returns no folders and `filesToSync` from fresh empty lists
returns empty download and replace lists. -/
theorem c7_idempotence (fs : LocalFS) (tree : List Node)
    (hfold : ∀ n ∈ tree, n.type = 'd' → fs.pathExists n.path = true)
    (hfile : ∀ n ∈ tree, n.type = '-' →
      fs.pathExists n.path = true ∧ fs.getsize n.path = n.size ∧
        n.date ≤ fs.st_mtime n.path) :
    getNewFolders fs tree = [] ∧ filesToSync fs tree ([], []) = ([], []) := by
  constructor
  · unfold getNewFolders
    exact foldl_gnf_all_present fs tree [] hfold
  · rw [filesToSync_eq]
    have hd : tree.filter (fun n => decide (NeedsDownload fs n)) = [] := by
      rw [List.filter_eq_nil_iff]
      intro n hn
      simp only [decide_eq_true_eq, NeedsDownload]
      rintro ⟨hty, hdir, habs⟩
      rw [(hfile n hn hty).1] at habs
      exact absurd habs (by simp)
    have hr : tree.filter (fun n => decide (NeedsReplace fs n)) = [] := by
      rw [List.filter_eq_nil_iff]
      intro n hn
      simp only [decide_eq_true_eq, NeedsReplace]
      rintro ⟨hty, hdir, hex, hdiff⟩
      obtain ⟨hx, hsz, hmt⟩ := hfile n hn hty
      rcases hdiff with hdiff | hdiff
      · exact hdiff hsz
      · omega
    simp [hd, hr]

/-- Local state for the C7 witness: everything exists, sizes and mtimes
match. -/
def fsC7c : LocalFS :=
  { pathExists := fun _ => true, getsize := fun _ => 5, st_mtime := fun _ => 50 }

theorem c7_idempotence_witness :
    getNewFolders fsC7c treeC7 = [] ∧ filesToSync fsC7c treeC7 ([], []) = ([], []) :=
  c7_idempotence fsC7c treeC7 (by decide) (by decide)

/-- File whose size probe fails with a permission error. -/
def nodeC8bad : Node :=
  { type := '-', exportFlag := '-', exportDuration := '-', shared := '-',
    version := 0, size := 5, date := 10, name := "a.stl".data, path := "a.stl".data }

/-- File after the failing one that a continuing run would still examine. -/
def nodeC8good : Node :=
  { type := '-', exportFlag := '-', exportDuration := '-', shared := '-',
    version := 0, size := 7, date := 10, name := "b.stl".data, path := "b.stl".data }

/-- Probes for C8: everything exists, but `os.path.getsize("a.stl")` raises an
`OSError` (e.g. `PermissionError`); the size of `b.stl` is reported fine. -/
def fsC8 : LocalFSE :=
  { pathExists := fun _ => true,
    getsize := fun p => if p == "a.stl".data then .error .osError else .ok 7,
    st_mtime := fun _ => .ok 100 }

/-- C8 counterexample: when the size probe of the first file fails with an
error other than not-found, `filesToSync` aborts the whole run with that
error — the node is not "reported and skipped", and the remaining node is
never examined.  There is no per-node error handling in the reconciler. -/
theorem c8_counterexample :
    filesToSyncE fsC8 [nodeC8bad, nodeC8good] ([], []) = .error .osError := by
  rfl

/-- C8 (amended): a failure of the size probe (an exception other than
not-found, such as permission denied) on any file node whose containing
directory and whose own path pass the existence checks aborts the entire
reconciliation run with that exception, regardless of how many nodes remain;
existence checks themselves cannot fail (`os.path.exists` maps every error to
`False`). -/
theorem c8_probe_error_aborts (fs : LocalFSE) (t1 t2 : List Node) (node : Node)
    (dl rp : List Node) (mid : List Node × List Node) (e : PyErr)
    (hpre : filesToSyncE fs t1 (dl, rp) = .ok mid)
    (h1 : node.type = '-')
    (h2 : fs.pathExists (dirname node.path) = true)
    (h3 : fs.pathExists node.path = true)
    (hsz : fs.getsize node.path = .error e) :
    filesToSyncE fs (t1 ++ node :: t2) (dl, rp) = .error e := by
  rw [filesToSyncE_append fs t1 (node :: t2) dl rp mid hpre]
  obtain ⟨mdl, mrp⟩ := mid
  simp [filesToSyncE, h1, h2, h3, hsz]

theorem c8_probe_error_aborts_witness :
    filesToSyncE fsC8 ([nodeC8good] ++ nodeC8bad :: []) ([], []) = .error .osError :=
  c8_probe_error_aborts fsC8 [nodeC8good] [] nodeC8bad [] [] ([], []) .osError
    rfl rfl rfl rfl rfl

/-- C9: the shallow-walk draft of `getRemoteTree` in scrape.py can never
complete normally: whatever the listing oracle returns and however much fuel
the loop embedding is given, the result is never `.ok` — after the first pass
over the work list the source iterates `toPop.sort(reverse=True)`, which is
`None`, raising `TypeError` (scrape.py:263-264).  Concretely, with an oracle
returning an empty listing the function raises `TypeError` at once. -/
theorem c9_walk_never_completes :
    (∀ (ls : Str → Except PyErr (List Node)) (fuel : Nat),
      isOkB (scrapeGetRemoteTree ls fuel) = false) ∧
    scrapeGetRemoteTree (fun _ => .ok []) 1 = .error .typeError := by
  constructor
  · intro ls fuel
    cases h : forPass ls fuel 0 [rootNode] [] 0 with
    | error e => simp [scrapeGetRemoteTree, isOkB, h]
    | ok r => simp [scrapeGetRemoteTree, isOkB, h]
  · rfl

/-- Folder `Minis`, locally absent, for C10. -/
def folderC10 : Node :=
  { type := 'd', exportFlag := '-', exportDuration := '-', shared := '-',
    version := 0, size := 0, date := 50,
    name := "Minis".data, path := "Minis".data }

/-- Folder `Minis2`: its path has `Minis` as a raw string prefix although
`Minis` is not its ancestor directory. -/
def folderC10b : Node :=
  { type := 'd', exportFlag := '-', exportDuration := '-', shared := '-',
    version := 0, size := 0, date := 50,
    name := "Minis2".data, path := "Minis2".data }

/-- Local state for C10: nothing exists. -/
def fsC10 : LocalFS :=
  { pathExists := fun _ => false, getsize := fun _ => 0, st_mtime := fun _ => 0 }

/-- C10: the subsumption check of `getNewFolders` compares raw string
prefixes (`startswith`, sync.py:352), not path segments: with both `Minis`
and `Minis2` locally absent, `Minis2` is treated as subsumed by the
previously queued `Minis` and never appended, even though `Minis` is not its
ancestor. -/
theorem c10_prefix_subsumption :
    fsC10.pathExists folderC10b.path = false ∧
    prefixB folderC10.path folderC10b.path = true ∧
    getNewFolders fsC10 [folderC10, folderC10b] = [folderC10] := by
  refine ⟨rfl, rfl, rfl⟩
